import Mathlib

/-!
Verification of the f1-2025-analysis telemetry pipeline.

The repository consists of per-driver "normalizer" scripts
(`Ham_analysis.py`, `Ver_analysis.py`, `lec_analyse.py`,
`global_player_csv_clean.py`) that merge per-lap CSV files into one
cleaned, sorted per-driver CSV, and dashboard scripts
(`compare_player.py`, `analyse_player/analyse_lec.py`,
`analyse_player/str_analysis.py`) that resample two laps onto a common
distance grid and compute a cumulative time-delta curve.

The embedding below models:
  * a raw CSV row by the three columns the cleaning logic touches
    (`DriverAhead`, `DistanceToDriverAhead`, `SessionTime`); the
    remaining channels (Speed, RPM, X, Y, ...) are untouched by the
    normalizer and are omitted; frames are assumed to carry these three
    columns, so the `if col in combined.columns` guards of the scripts
    all take their true branch;
  * numeric CSV values by rationals (`SessionTime` is the value after
    the script's `pd.to_timedelta(...).dt.total_seconds()` conversion);
  * a file read (`pd.read_csv`) by `Except String (List RawRecord)`:
    `.error e` is a raised parse exception with message `e`;
  * a directory by `Option (List (String × ...))`: `none` is a missing
    directory (`os.listdir` / the `os.path.isdir` guard), `some files`
    the filename-sorted listing restricted to `.csv` files;
  * the delta engine (`np.linspace` / `np.interp` / `np.clip` /
    `np.diff(..., prepend=0)` / `np.cumsum`) by exact rational
    arithmetic over lists.
-/

deriving instance DecidableEq for Except

/-- One raw telemetry row, restricted to the columns the normalizer
cleans: `DriverAhead` (nullable string), `DistanceToDriverAhead`
(nullable number), `SessionTime` (duration, modelled as its value in
seconds after the scripts' `to_timedelta(...).dt.total_seconds()`). -/
structure RawRecord where
  driverAhead : Option String
  distanceToDriverAhead : Option ℚ
  sessionTime : ℚ
deriving DecidableEq

/-- A row of the merged per-driver table: the raw columns plus the
`Driver` and `LapNumber` columns added by the merge loops. -/
structure Row where
  driver : String
  lapNumber : Int
  driverAhead : Option String
  distanceToDriverAhead : Option ℚ
  sessionTime : ℚ
deriving DecidableEq

/-- `df["Driver"] = driver_code; df["LapNumber"] = lap_number` — tag
every record of one lap file with the driver code and lap number. -/
def tagRow (driver : String) (lap : Int) (r : RawRecord) : Row :=
  ⟨driver, lap, r.driverAhead, r.distanceToDriverAhead, r.sessionTime⟩

/-- Parse a run of decimal digit characters; `none` when the list is
empty or contains a non-digit (Python `int(...)` raising `ValueError`). -/
def digitsToNat (l : List Char) : Option Nat :=
  if l ≠ [] ∧ l.all Char.isDigit then
    some (l.foldl (fun n c => 10 * n + (c.toNat - 48)) 0)
  else none

/-- Python `int(s)` on a (possibly signed) decimal string: `none` models
the `ValueError` raised on any other input. -/
def str_to_int (l : List Char) : Option Int :=
  if l.head? = some '-' then (digitsToNat l.tail).map (fun n => -(n : Int))
  else if l.head? = some '+' then (digitsToNat l.tail).map (fun n => (n : Int))
  else (digitsToNat l).map (fun n => (n : Int))

/-- Fuelled scan for `str.replace`: on a match of a nonempty `pat` the
scan resumes after the matched occurrence, otherwise one character is
kept and the scan advances by one.  Each step consumes at least one
input character, so `fuel = input length` never runs out. -/
def replaceAllFuel (pat repl : List Char) : ℕ → List Char → List Char
  | _, [] => []
  | 0, l => l
  | fuel + 1, c :: rest =>
    if pat.isPrefixOf (c :: rest) && !pat.isEmpty then
      repl ++ replaceAllFuel pat repl fuel ((c :: rest).drop pat.length)
    else
      c :: replaceAllFuel pat repl fuel rest

/-- Python `str.replace(pat, repl)`: replace every non-overlapping
occurrence of `pat`, scanning left to right. -/
def replaceAll (pat repl l : List Char) : List Char :=
  replaceAllFuel pat repl l.length l

/-- `Ham_analysis.py` line 138 / `global_player_csv_clean.py` line 130:
`int(filename.replace("lap_", "").replace(".csv", ""))`.  `none` models
the `ValueError` raised when the stripped name is not an integer. -/
def lap_number_ham (filename : String) : Option Int :=
  str_to_int (replaceAll ".csv".data [] (replaceAll "lap_".data [] filename.data))

/-- Leftmost maximal run of digits in a character list (the capture of
`re.search(r'(\d+)', filename)`), `none` when no digit occurs. -/
def first_digit_run : List Char → Option (List Char)
  | [] => none
  | c :: rest =>
    if c.isDigit then some (c :: rest.takeWhile Char.isDigit)
    else first_digit_run rest

/-- `Ver_analysis.py` lines 156-157: `re.search(r'(\d+)', filename)`,
defaulting to lap 0 when the filename has no digits. -/
def lap_number_ver (filename : String) : Int :=
  (((first_digit_run filename.data).bind digitsToNat).getD 0 : Nat)

/-- The digit run captured by `re.search(r'lap_(\d+)', ...)`: the digits
after the leftmost occurrence of `"lap_"` that is followed by at least
one digit; `none` when no such occurrence exists. -/
def lap_match_lec : List Char → Option (List Char)
  | [] => none
  | c :: rest =>
    if "lap_".data.isPrefixOf (c :: rest) then
      if ((rest.drop 3).takeWhile Char.isDigit).isEmpty then lap_match_lec rest
      else some ((rest.drop 3).takeWhile Char.isDigit)
    else lap_match_lec rest

/-- `lec_analyse.py` lines 82-83: `re.search(r'lap_(\d+)', filename)`,
defaulting to lap 0 on no match. -/
def lap_number_lec (filename : String) : Int :=
  (((lap_match_lec filename.data).bind digitsToNat).getD 0 : Nat)

/-! ### Telemetry Normalizer: inspection phase -/

/-- One entry of the textual diagnostic report (the report's prose is
abstracted to its structure: which file each entry concerns and what it
records). -/
inductive ReportEntry where
  | header (file : String)
  | readFailure (file : String) (err : String)
  | emptyFile (file : String)
  | fileDetails (file : String) (missingDriverAhead : Nat)
  | dirMissing
deriving DecidableEq

/-- `inspect_csv` of `global_player_csv_clean.py` lines 26-86: write a
header for the file; on a read failure write the failure and return
(processing of other files continues); otherwise record emptiness or
the count of missing `DriverAhead` values. -/
def inspect_csv (name : String) (content : Except String (List RawRecord)) :
    List ReportEntry :=
  match content with
  | .error e => [.header name, .readFailure name e]
  | .ok df =>
    if df.length = 0 then [.header name, .emptyFile name]
    else [.header name, .fileDetails name (df.countP (fun r => r.driverAhead.isNone))]

/-- The inspection loop (`for filename in csv_files: inspect_csv(...)`)
over the filename-sorted directory listing. -/
def inspectBatch : List (String × Except String (List RawRecord)) → List ReportEntry
  | [] => []
  | (name, content) :: rest => inspect_csv name content ++ inspectBatch rest

/-! ### Telemetry Normalizer: merge, clean and sort phase -/

/-- The exception message of `int()` on a non-numeric string. -/
def valueErrorMsg : String := "ValueError: invalid literal for int"

/-- The exception raised by `os.listdir` on a missing directory. -/
def fileNotFoundMsg : String := "FileNotFoundError"

/-- The merge loop of `Ham_analysis.py` lines 127-143 and
`global_player_csv_clean.py` lines 125-132: for each csv file,
`pd.read_csv` (a parse failure here is unguarded and aborts the whole
merge), then `int(filename.replace("lap_", "").replace(".csv", ""))`
(raising `ValueError` on a non-numeric remainder), then tag and append
to the combined table. -/
def merge_loop_strict (driver : String) :
    List (String × Except String (List RawRecord)) → Except String (List Row)
  | [] => .ok []
  | (name, content) :: rest =>
    match content with
    | .error e => .error e
    | .ok df =>
      match lap_number_ham name with
      | none => .error valueErrorMsg
      | some lap =>
        match merge_loop_strict driver rest with
        | .error e => .error e
        | .ok tail => .ok (df.map (tagRow driver lap) ++ tail)

/-- The merge loop of `Ver_analysis.py` lines 150-165: lap number from
the first digit run (total, defaulting to 0), read failures still
unguarded. -/
def merge_loop_ver (driver : String) :
    List (String × Except String (List RawRecord)) → Except String (List Row)
  | [] => .ok []
  | (name, content) :: rest =>
    match content with
    | .error e => .error e
    | .ok df =>
      match merge_loop_ver driver rest with
      | .error e => .error e
      | .ok tail => .ok (df.map (tagRow driver (lap_number_ver name)) ++ tail)

/-- The merge loop of `lec_analyse.py` lines 78-88: lap number from
`re.search(r'lap_(\d+)', ...)` (total, defaulting to 0), read failures
unguarded. -/
def merge_loop_lec (driver : String) :
    List (String × Except String (List RawRecord)) → Except String (List Row)
  | [] => .ok []
  | (name, content) :: rest =>
    match content with
    | .error e => .error e
    | .ok df =>
      match merge_loop_lec driver rest with
      | .error e => .error e
      | .ok tail => .ok (df.map (tagRow driver (lap_number_lec name)) ++ tail)

/-- `combined["DriverAhead"] = combined["DriverAhead"].fillna("None")`:
replace missing car-ahead values by the string sentinel `"None"`. -/
def fill_driverahead (rows : List Row) : List Row :=
  rows.map fun r => { r with driverAhead := some (r.driverAhead.getD "None") }

/-- `combined.loc[combined["DriverAhead"] == "None",
"DistanceToDriverAhead"] = None`: null the gap wherever the car-ahead
sentinel is present (present in `global_player_csv_clean.py`,
`Ham_analysis.py` and `Ver_analysis.py`; absent from `lec_analyse.py`). -/
def clear_gap_for_clean_air (rows : List Row) : List Row :=
  rows.map fun r =>
    if r.driverAhead = some "None" then { r with distanceToDriverAhead := none } else r

/-- The lexicographic order of
`combined.sort_values(by=["LapNumber", "SessionTime"])`. -/
def rowLE (a b : Row) : Prop :=
  a.lapNumber < b.lapNumber ∨ (a.lapNumber = b.lapNumber ∧ a.sessionTime ≤ b.sessionTime)

instance : DecidableRel rowLE := fun a b => by
  unfold rowLE; infer_instance

instance : IsTotal Row rowLE :=
  ⟨fun a b => by
    unfold rowLE
    rcases lt_trichotomy a.lapNumber b.lapNumber with h | h | h
    · exact Or.inl (Or.inl h)
    · rcases le_total a.sessionTime b.sessionTime with h2 | h2
      · exact Or.inl (Or.inr ⟨h, h2⟩)
      · exact Or.inr (Or.inr ⟨h.symm, h2⟩)
    · exact Or.inr (Or.inl h)⟩

instance : IsTrans Row rowLE :=
  ⟨fun a b c hab hbc => by
    unfold rowLE at *
    rcases hab with h1 | ⟨h1, h1s⟩ <;> rcases hbc with h2 | ⟨h2, h2s⟩
    · exact Or.inl (h1.trans h2)
    · exact Or.inl (lt_of_lt_of_le h1 (le_of_eq h2))
    · exact Or.inl (lt_of_le_of_lt (le_of_eq h1) h2)
    · exact Or.inr ⟨h1.trans h2, h1s.trans h2s⟩⟩

/-- `combined.sort_values(by=["LapNumber", "SessionTime"])`, modelled as
a sort producing a permutation ordered by `rowLE`. -/
def sort_rows (rows : List Row) : List Row := List.insertionSort rowLE rows

/-- `combined.reset_index(drop=True)` followed by `to_csv`: the
persisted artifact carries a dense positional index. -/
def reset_index (rows : List Row) : List (Nat × Row) :=
  (List.range rows.length).zip rows

/-- The merge/clean/sort phase of `global_player_csv_clean.py` lines
125-147: merge all files (read and lap-number failures abort), and only
when the combined table is nonempty fill the car-ahead sentinel, null
the paired gap, sort by (lap, session time) and persist; an empty merge
writes no artifact (`none`). -/
def global_merge_phase (driver : String)
    (files : List (String × Except String (List RawRecord))) :
    Except String (Option (List Row)) :=
  match merge_loop_strict driver files with
  | .error e => .error e
  | .ok combined =>
    if combined.isEmpty then .ok none
    else .ok (some (sort_rows (clear_gap_for_clean_air (fill_driverahead combined))))

/-- The merge phase of `Ham_analysis.py` lines 125-165: the loop starts
with `os.listdir(driver_folder)`, which raises `FileNotFoundError` when
the directory is absent (there is no guard in this phase, unlike the
inspection phase of the same script); otherwise merge, clean, sort and
persist unconditionally. -/
def ham_merge_phase (driver : String)
    (dir : Option (List (String × Except String (List RawRecord)))) :
    Except String (Option (List Row)) :=
  match dir with
  | none => .error fileNotFoundMsg
  | some files =>
    match merge_loop_strict driver files with
    | .error e => .error e
    | .ok combined =>
      .ok (some (sort_rows (clear_gap_for_clean_air (fill_driverahead combined))))

/-- The merge phase of `lec_analyse.py` lines 74-103: guarded by
`os.path.isdir`; lap number from the `lap_(\d+)` regex; fill the
car-ahead sentinel but perform NO gap clearing; sort by
(LapNumber, SessionTime); write only when at least one csv was read
(`if combined_data:`). -/
def lec_merge_phase (files : List (String × Except String (List RawRecord))) :
    Except String (Option (List Row)) :=
  match merge_loop_lec "LEC" files with
  | .error e => .error e
  | .ok combined =>
    if files.isEmpty then .ok none
    else .ok (some (sort_rows (fill_driverahead combined)))

/-- The outcome of one whole normalizer run: the diagnostic report and
the optional canonical artifact. -/
structure NormalizerResult where
  report : List ReportEntry
  artifact : Option (List Row)
deriving DecidableEq

/-- A whole run of `lec_analyse.py`: when the directory is missing both
parts are guarded (`if not os.path.isdir(...)` prints the absence,
`if os.path.isdir(...)` skips the merge), so the run completes with a
degraded report and no artifact instead of raising. -/
def lec_run (dir : Option (List (String × Except String (List RawRecord)))) :
    Except String NormalizerResult :=
  match dir with
  | none => .ok ⟨[.dirMissing], none⟩
  | some files =>
    match lec_merge_phase files with
    | .error e => .error e
    | .ok artifact => .ok ⟨inspectBatch files, artifact⟩

/-! ### Lap Delta Engine (`compare_player.py` lines 44-57,
`analyse_player/analyse_lec.py` lines 160-169) -/

/-- The order used by `d1.sort_values("Distance")` on (distance, speed)
pairs. -/
def distLE (p q : ℚ × ℚ) : Prop := p.1 ≤ q.1

instance : DecidableRel distLE := fun p q => by
  unfold distLE; infer_instance

instance : IsTotal (ℚ × ℚ) distLE := ⟨fun p q => le_total p.1 q.1⟩

instance : IsTrans (ℚ × ℚ) distLE := ⟨fun _ _ _ h1 h2 => le_trans h1 h2⟩

/-- `d1.sort_values("Distance")`: sort one lap's samples by distance. -/
def sortByDist (lap : List (ℚ × ℚ)) : List (ℚ × ℚ) := List.insertionSort distLE lap

/-- `d1['Distance'].max()` — maximum recorded distance of a lap (0 on an
empty lap, a case the dashboard never reaches because lap slices come
from `df[df.LapNumber == n]` of a selected existing lap). -/
def maxDist : List (ℚ × ℚ) → ℚ
  | [] => 0
  | p :: ps => ps.foldl (fun acc q => max acc q.1) p.1

/-- `np.linspace(a, b, n)` with its endpoint convention:
`a + (b - a) * i / (n - 1)` for `i = 0, ..., n - 1`. -/
def linspace (a b : ℚ) (n : ℕ) : List ℚ :=
  (List.range n).map fun (i : ℕ) => a + (b - a) * (i : ℚ) / ((n : ℚ) - 1)

/-- `dist_common = np.linspace(0, min(d1['Distance'].max(),
d2['Distance'].max()), 2000)` — the fixed 2000-point comparison grid. -/
def commonGrid (lapA lapB : List (ℚ × ℚ)) : List ℚ :=
  linspace 0 (min (maxDist (sortByDist lapA)) (maxDist (sortByDist lapB))) 2000

/-- `np.interp(x, xp, fp)` at a single point, for `xp` sorted ascending:
constant extrapolation outside the sample domain, linear interpolation
between bracketing samples (a lap with a single sample yields that
sample's value everywhere). -/
def interpPoint (x : ℚ) : List (ℚ × ℚ) → ℚ
  | [] => 0
  | [(_, f0)] => f0
  | (x0, f0) :: (x1, f1) :: rest =>
    if x ≤ x0 then f0
    else if x ≤ x1 then f0 + (f1 - f0) * (x - x0) / (x1 - x0)
    else interpPoint x ((x1, f1) :: rest)

/-- `np.clip(x, lo, hi)` = `min(max(x, lo), hi)`. -/
def clip (x lo hi : ℚ) : ℚ := min (max x lo) hi

/-- `np.diff(l, prepend=0)`: adjacent differences of `0 :: l`, one per
element of `l` (the first entry is `l[0] - 0`). -/
def diffPrepend0 (l : List ℚ) : List ℚ :=
  (l.zip (0 :: l)).map (fun p => p.1 - p.2)

/-- `np.cumsum` with an explicit running accumulator. -/
def cumsumFrom (acc : ℚ) : List ℚ → List ℚ
  | [] => []
  | x :: xs => (acc + x) :: cumsumFrom (acc + x) xs

/-- `np.cumsum l = [l0, l0+l1, ...]`. -/
def cumsum (l : List ℚ) : List ℚ := cumsumFrom 0 l

/-- The per-grid-point summand of the delta:
`(1/clip(v1/3.6, lo, hi) - 1/clip(v2/3.6, lo, hi)) * step`, with `v1`,
`v2` the two laps' speeds interpolated at the grid point.
(`compare_player.py` clamps to `[1, 100]`, `analyse_lec.py` to
`[0.1, 100]`; the bounds are parameters `lo`, `hi`.) -/
def deltaTerms (lo hi : ℚ) (dA dB : List (ℚ × ℚ)) (grid : List ℚ) : List ℚ :=
  (grid.zip (diffPrepend0 grid)).map fun p =>
    (1 / clip (interpPoint p.1 dA / 3.6) lo hi
      - 1 / clip (interpPoint p.1 dB / 3.6) lo hi) * p.2

/-- `delta_time = np.cumsum((1/np.clip(v1_interp/3.6, lo, hi) -
1/np.clip(v2_interp/3.6, lo, hi)) * np.diff(dist_common, prepend=0))`
(`compare_player.py` line 57 with `lo = 1`, `analyse_lec.py` line 169
with `lo = 0.1`). -/
def delta_time (lo hi : ℚ) (lapA lapB : List (ℚ × ℚ)) : List ℚ :=
  cumsum (deltaTerms lo hi (sortByDist lapA) (sortByDist lapB) (commonGrid lapA lapB))

/-- `np.diff(...).fillna(0)` applied to a pandas `Series.diff()`: the
first entry (NaN in pandas) becomes 0, the rest are adjacent
differences. -/
def diff_fillna0 : List ℚ → List ℚ
  | [] => []
  | d :: ds => 0 :: (ds.zip (d :: ds)).map (fun p => p.1 - p.2)

/-- `single_lap_time` inside `compute_lap_time_stats`
(`analyse_player/analyse_lec.py` lines 59-64,
`analyse_player/str_analysis.py` lines 53-58): sort the lap by
distance, `dx = Distance.diff().fillna(0)`,
`v_mps = np.clip(Speed/3.6, 0.1, 100)`, result `np.nansum(dx / v_mps)`. -/
def single_lap_time (lap : List (ℚ × ℚ)) : ℚ :=
  List.sum (((diff_fillna0 ((sortByDist lap).map Prod.fst)).zip
      ((sortByDist lap).map fun p => clip (p.2 / 3.6) 0.1 100)).map fun p => p.1 / p.2)

/-! ### Helper lemmas: delta engine -/

theorem length_cumsumFrom (acc : ℚ) (l : List ℚ) :
    (cumsumFrom acc l).length = l.length := by
  induction l generalizing acc with
  | nil => rfl
  | cons x xs ih => simp [cumsumFrom, ih]

theorem length_cumsum (l : List ℚ) : (cumsum l).length = l.length :=
  length_cumsumFrom 0 l

theorem length_diffPrepend0 (l : List ℚ) : (diffPrepend0 l).length = l.length := by
  simp [diffPrepend0]

theorem length_linspace (a b : ℚ) (n : ℕ) : (linspace a b n).length = n := by
  rw [linspace, List.length_map, List.length_range]

theorem length_commonGrid (lapA lapB : List (ℚ × ℚ)) :
    (commonGrid lapA lapB).length = 2000 :=
  length_linspace _ _ _

theorem length_deltaTerms (lo hi : ℚ) (dA dB : List (ℚ × ℚ)) (grid : List ℚ) :
    (deltaTerms lo hi dA dB grid).length = grid.length := by
  simp [deltaTerms, length_diffPrepend0]

theorem length_delta_time (lo hi : ℚ) (lapA lapB : List (ℚ × ℚ)) :
    (delta_time lo hi lapA lapB).length = 2000 := by
  simp [delta_time, length_cumsum, length_deltaTerms, length_commonGrid]

theorem cumsumFrom_map_neg (l : List ℚ) (acc : ℚ) :
    cumsumFrom (-acc) (l.map (fun x => -x)) = (cumsumFrom acc l).map (fun x => -x) := by
  induction l generalizing acc with
  | nil => rfl
  | cons x xs ih =>
    show (-acc + -x) :: cumsumFrom (-acc + -x) (xs.map (fun x => -x))
        = (-(acc + x)) :: (cumsumFrom (acc + x) xs).map (fun x => -x)
    rw [show -acc + -x = -(acc + x) by ring, ih (acc + x)]

theorem cumsum_map_neg (l : List ℚ) :
    cumsum (l.map (fun x => -x)) = (cumsum l).map (fun x => -x) := by
  have := cumsumFrom_map_neg l 0
  rwa [neg_zero] at this

theorem commonGrid_comm (lapA lapB : List (ℚ × ℚ)) :
    commonGrid lapB lapA = commonGrid lapA lapB := by
  unfold commonGrid
  rw [min_comm]

theorem deltaTerms_swap (lo hi : ℚ) (dA dB : List (ℚ × ℚ)) (grid : List ℚ) :
    deltaTerms lo hi dB dA grid = (deltaTerms lo hi dA dB grid).map (fun x => -x) := by
  unfold deltaTerms
  rw [List.map_map]
  apply List.map_congr_left
  intro p _
  simp only [Function.comp_apply]
  ring

theorem get_commonGrid (lapA lapB : List (ℚ × ℚ)) (i : ℕ)
    (h : i < (commonGrid lapA lapB).length) :
    (commonGrid lapA lapB).get ⟨i, h⟩
      = min (maxDist (sortByDist lapA)) (maxDist (sortByDist lapB)) * (i : ℚ) / 1999 := by
  have h2 : i < 2000 := by
    have := length_commonGrid lapA lapB
    omega
  simp only [commonGrid, linspace, List.get_eq_getElem] at h ⊢
  rw [List.getElem_map, List.getElem_range]
  norm_num

theorem commonGrid_eq_cons (lapA lapB : List (ℚ × ℚ)) :
    commonGrid lapA lapB
      = 0 :: ((List.range 1999).map Nat.succ).map
          (fun (i : ℕ) => 0 + (min (maxDist (sortByDist lapA)) (maxDist (sortByDist lapB)) - 0)
            * (i : ℚ) / (((2000 : ℕ) : ℚ) - 1)) := by
  rw [commonGrid, linspace, show (2000 : ℕ) = 1999 + 1 by norm_num,
    List.range_succ_eq_map, List.map_cons]
  norm_num

/-! ### Claims on the Delta Engine -/

/-- C6: for every clamp choice and every pair of laps A and B, the delta
curve of A versus B and the delta curve of B versus A are pointwise
negations of each other (exactly, in the rational model): swapping the
laps leaves the common grid unchanged and negates every summand of the
cumulative sum. -/
theorem c6_delta_antisymm (lo hi : ℚ) (lapA lapB : List (ℚ × ℚ)) :
    delta_time lo hi lapB lapA = (delta_time lo hi lapA lapB).map (fun x => -x) := by
  unfold delta_time
  rw [commonGrid_comm, deltaTerms_swap, cumsum_map_neg]

/-- C9: for every pair of laps the cumulative delta curve starts at
exactly 0: the first grid point is distance 0, `np.diff(..., prepend=0)`
makes the first step size `0 - 0 = 0`, and the running sum starts from
that zero term. -/
theorem c9_delta_starts_at_zero (lo hi : ℚ) (lapA lapB : List (ℚ × ℚ)) :
    (delta_time lo hi lapA lapB).head? = some 0 := by
  obtain ⟨t, ht⟩ : ∃ t, commonGrid lapA lapB = 0 :: t :=
    ⟨_, commonGrid_eq_cons lapA lapB⟩
  rw [delta_time, ht]
  simp [deltaTerms, diffPrepend0, cumsum, cumsumFrom]

/-- C5: for every pair of laps that each carry at least one sample, the
comparison grid `np.linspace(0, min(maxDist A, maxDist B), 2000)` has
exactly 2000 points, starts at 0, ends exactly at the minimum of the two
laps' maximum distances, is evenly spaced with step `m / 1999`, and
(when that minimum is nonnegative, as lap distances are) every grid
point lies in `[0, m]`, so 0 is the grid's minimum and `m` its maximum. -/
theorem c5_common_grid (lapA lapB : List (ℚ × ℚ))
    (hA : lapA ≠ []) (hB : lapB ≠ []) :
    (commonGrid lapA lapB).length = 2000 ∧
    (∀ h0 : 0 < (commonGrid lapA lapB).length,
      (commonGrid lapA lapB).get ⟨0, h0⟩ = 0) ∧
    (∀ hL : 1999 < (commonGrid lapA lapB).length,
      (commonGrid lapA lapB).get ⟨1999, hL⟩
        = min (maxDist (sortByDist lapA)) (maxDist (sortByDist lapB))) ∧
    (∀ i : ℕ, ∀ h : i + 1 < (commonGrid lapA lapB).length,
      (commonGrid lapA lapB).get ⟨i + 1, h⟩
          - (commonGrid lapA lapB).get ⟨i, by omega⟩
        = min (maxDist (sortByDist lapA)) (maxDist (sortByDist lapB)) / 1999) ∧
    (0 ≤ min (maxDist (sortByDist lapA)) (maxDist (sortByDist lapB)) →
      ∀ x ∈ commonGrid lapA lapB,
        0 ≤ x ∧ x ≤ min (maxDist (sortByDist lapA)) (maxDist (sortByDist lapB))) := by
  refine ⟨length_commonGrid lapA lapB, ?_, ?_, ?_, ?_⟩
  · intro h0
    rw [get_commonGrid]
    norm_num
  · intro hL
    rw [get_commonGrid]
    rw [mul_div_assoc]
    norm_num
  · intro i h
    rw [get_commonGrid, get_commonGrid]
    push_cast
    ring
  · intro hm x hx
    rw [commonGrid, linspace] at hx
    rcases List.mem_map.mp hx with ⟨i, hi, rfl⟩
    have hi2 : i < 2000 := List.mem_range.mp hi
    have hi3 : (i : ℚ) ≤ 1999 := by
      have : i ≤ 1999 := by omega
      exact_mod_cast this
    constructor
    · have : (0 : ℚ) ≤ ((2000 : ℕ) : ℚ) - 1 := by norm_num
      apply add_nonneg le_rfl
      apply div_nonneg _ this
      exact mul_nonneg (by simpa using hm) (Nat.cast_nonneg i)
    · have h1999 : (0 : ℚ) < ((2000 : ℕ) : ℚ) - 1 := by norm_num
      rw [zero_add, sub_zero, div_le_iff₀ h1999]
      calc min (maxDist (sortByDist lapA)) (maxDist (sortByDist lapB)) * (i : ℚ)
          ≤ min (maxDist (sortByDist lapA)) (maxDist (sortByDist lapB)) * 1999 :=
            mul_le_mul_of_nonneg_left hi3 hm
        _ = min (maxDist (sortByDist lapA)) (maxDist (sortByDist lapB))
              * (((2000 : ℕ) : ℚ) - 1) := by norm_num

/-- C5 witness: the grid properties at two concrete two-sample laps. -/
theorem c5_common_grid_witness :
    (commonGrid [((0 : ℚ), (100 : ℚ)), (50, 200)] [((0 : ℚ), (80 : ℚ)), (40, 150)]).length
        = 2000 ∧
    (∀ h0 : 0 < (commonGrid [((0 : ℚ), (100 : ℚ)), (50, 200)]
        [((0 : ℚ), (80 : ℚ)), (40, 150)]).length,
      (commonGrid [((0 : ℚ), (100 : ℚ)), (50, 200)]
          [((0 : ℚ), (80 : ℚ)), (40, 150)]).get ⟨0, h0⟩ = 0) ∧
    (∀ hL : 1999 < (commonGrid [((0 : ℚ), (100 : ℚ)), (50, 200)]
        [((0 : ℚ), (80 : ℚ)), (40, 150)]).length,
      (commonGrid [((0 : ℚ), (100 : ℚ)), (50, 200)]
          [((0 : ℚ), (80 : ℚ)), (40, 150)]).get ⟨1999, hL⟩
        = min (maxDist (sortByDist [((0 : ℚ), (100 : ℚ)), (50, 200)]))
            (maxDist (sortByDist [((0 : ℚ), (80 : ℚ)), (40, 150)]))) ∧
    (∀ i : ℕ, ∀ h : i + 1 < (commonGrid [((0 : ℚ), (100 : ℚ)), (50, 200)]
        [((0 : ℚ), (80 : ℚ)), (40, 150)]).length,
      (commonGrid [((0 : ℚ), (100 : ℚ)), (50, 200)]
            [((0 : ℚ), (80 : ℚ)), (40, 150)]).get ⟨i + 1, h⟩
          - (commonGrid [((0 : ℚ), (100 : ℚ)), (50, 200)]
            [((0 : ℚ), (80 : ℚ)), (40, 150)]).get ⟨i, by omega⟩
        = min (maxDist (sortByDist [((0 : ℚ), (100 : ℚ)), (50, 200)]))
            (maxDist (sortByDist [((0 : ℚ), (80 : ℚ)), (40, 150)])) / 1999) ∧
    (0 ≤ min (maxDist (sortByDist [((0 : ℚ), (100 : ℚ)), (50, 200)]))
        (maxDist (sortByDist [((0 : ℚ), (80 : ℚ)), (40, 150)])) →
      ∀ x ∈ commonGrid [((0 : ℚ), (100 : ℚ)), (50, 200)] [((0 : ℚ), (80 : ℚ)), (40, 150)],
        0 ≤ x ∧ x ≤ min (maxDist (sortByDist [((0 : ℚ), (100 : ℚ)), (50, 200)]))
          (maxDist (sortByDist [((0 : ℚ), (80 : ℚ)), (40, 150)]))) :=
  c5_common_grid [((0 : ℚ), (100 : ℚ)), (50, 200)] [((0 : ℚ), (80 : ℚ)), (40, 150)]
    (by decide) (by decide)

/-- C3 counterexample: the engine signals no `InsufficientSamples` and
no `NoOverlap` error — there is no such code path.  A lap with a single
distance sample still yields a full 2000-point delta curve (by
`np.interp`'s constant extrapolation), and two laps with disjoint
distance domains ([0,10] and [20,30]) also yield a full curve. -/
theorem c3_counterexample :
    (delta_time 1 100 [((0 : ℚ), (100 : ℚ))] [((0 : ℚ), 200), ((100 : ℚ), 100)]).length
        = 2000 ∧
    (delta_time 1 100 [((0 : ℚ), (100 : ℚ)), ((10 : ℚ), 100)]
        [((20 : ℚ), (50 : ℚ)), ((30 : ℚ), 50)]).length = 2000 :=
  ⟨length_delta_time 1 100 _ _, length_delta_time 1 100 _ _⟩

/-- C3 amended: the Delta Engine performs no input validation at all —
for every clamp choice and every pair of input laps (including a lap
with fewer than 2 samples and laps with disjoint distance domains) it
returns a full 2000-point curve over `[0, min(maxDist A, maxDist B)]`
instead of signalling `InsufficientSamples` or `NoOverlap`. -/
theorem c3_amended (lo hi : ℚ) (lapA lapB : List (ℚ × ℚ)) :
    (delta_time lo hi lapA lapB).length = 2000 :=
  length_delta_time lo hi lapA lapB

/-- C10: the per-lap estimated-lap-time computation is total: the
velocity term `np.clip(speed / 3.6, 0.1, 100)` is at least 0.1 before
inversion, and for a lap with exactly one sample the first distance
difference is filled with 0, so the estimated lap time is 0. -/
theorem c10_lap_time_total :
    (∀ x : ℚ, (0.1 : ℚ) ≤ clip (x / 3.6) 0.1 100) ∧
    (∀ d s : ℚ, single_lap_time [(d, s)] = 0) := by
  constructor
  · intro x
    unfold clip
    exact le_min (le_max_right _ _) (by norm_num)
  · intro d s
    simp [single_lap_time, sortByDist, List.insertionSort, List.orderedInsert, diff_fillna0]

/-! ### Helper lemmas: normalizer -/

theorem mem_sort_rows (r : Row) (rows : List Row) :
    r ∈ sort_rows rows ↔ r ∈ rows :=
  (List.perm_insertionSort rowLE rows).mem_iff

/-- Extracting the successful-write case of the global cleaner: the
artifact is exactly the sorted, gap-cleared, sentinel-filled merge. -/
theorem global_merge_phase_ok (driver : String)
    (files : List (String × Except String (List RawRecord))) (out : List Row)
    (h : global_merge_phase driver files = Except.ok (some out)) :
    ∃ combined, merge_loop_strict driver files = Except.ok combined ∧
      out = sort_rows (clear_gap_for_clean_air (fill_driverahead combined)) := by
  unfold global_merge_phase at h
  split at h
  · simp at h
  · rename_i combined hm
    split at h
    · simp at h
    · simp only [Except.ok.injEq, Option.some.injEq] at h
      exact ⟨combined, hm, h.symm⟩

/-! ### Claims on the Normalizer -/

/-- C2 counterexample to the joint-nullity iff.  First conjunct: in the
output of `global_player_csv_clean.py` a raw row with car-ahead "VER"
and a null gap keeps its null gap next to a non-"None" car-ahead, so
`(carAhead == "None") == (gapDistance is null)` fails.  Second
conjunct: `lec_analyse.py` performs no gap forcing, so a raw row with a
null car-ahead and a numeric gap 5 comes out as sentinel "None" with
gap still 5. -/
theorem c2_counterexample :
    (global_merge_phase "HAM" [("lap_1.csv", Except.ok [⟨some "VER", none, 0⟩])]
        = Except.ok (some [⟨"HAM", 1, some "VER", none, 0⟩]) ∧
      ¬((some "VER" = some "None") ↔ (none : Option ℚ) = none)) ∧
    (lec_merge_phase [("lap_1.csv", Except.ok [⟨none, some 5, 0⟩])]
        = Except.ok (some [⟨"LEC", 1, some "None", some 5, 0⟩]) ∧
      ¬((some "None" = some "None") ↔ (some (5 : ℚ) : Option ℚ) = none)) := by
  exact ⟨⟨by decide, by decide⟩, ⟨by decide, by decide⟩⟩

/-- C2 amended: in every canonical artifact written by the
`global_player_csv_clean.py` cleaner (whose cleaning steps
`Ham_analysis.py` and `Ver_analysis.py` share), every record whose
car-ahead field is the sentinel "None" has a null gap-distance — the
forcing direction of the joint-nullity invariant.  The converse
implication does not hold, and `lec_analyse.py` does not force the gap
to null at all. -/
theorem c2_amended (driver : String)
    (files : List (String × Except String (List RawRecord))) (out : List Row)
    (h : global_merge_phase driver files = Except.ok (some out)) :
    ∀ r ∈ out, r.driverAhead = some "None" → r.distanceToDriverAhead = none := by
  obtain ⟨combined, _, hout⟩ := global_merge_phase_ok driver files out h
  intro r hr hnone
  have hr2 : r ∈ clear_gap_for_clean_air (fill_driverahead combined) :=
    (mem_sort_rows r _).mp (hout ▸ hr)
  rcases List.mem_map.mp hr2 with ⟨x, _, hfx⟩
  by_cases hc : x.driverAhead = some "None"
  · rw [← hfx, if_pos hc]
  · rw [← hfx, if_neg hc] at hnone
    exact absurd hnone hc

/-- C2 amended witness: the forcing direction at a one-file batch whose
single row has a null car-ahead and a stray numeric gap, instantiated at
the one record of the written artifact. -/
theorem c2_amended_witness :
    (⟨"HAM", 1, some "None", none, 0⟩ : Row).distanceToDriverAhead = none :=
  c2_amended "HAM" [("lap_1.csv", Except.ok [⟨none, some 4, 0⟩])]
    [⟨"HAM", 1, some "None", none, 0⟩] (by decide)
    ⟨"HAM", 1, some "None", none, 0⟩ (by decide) (by decide)

/-- C4: every canonical artifact the global cleaner writes is sorted by
(lap number, session-time seconds): adjacent records have nondecreasing
lap numbers, records of equal lap have nondecreasing session times, and
the persisted index (`reset_index(drop=True)`) is the dense 0-based
sequence. -/
theorem c4_ordering (driver : String)
    (files : List (String × Except String (List RawRecord))) (out : List Row)
    (h : global_merge_phase driver files = Except.ok (some out)) :
    (∀ i : ℕ, ∀ hh : i + 1 < out.length,
      (out.get ⟨i, by omega⟩).lapNumber ≤ (out.get ⟨i + 1, hh⟩).lapNumber ∧
      ((out.get ⟨i, by omega⟩).lapNumber = (out.get ⟨i + 1, hh⟩).lapNumber →
        (out.get ⟨i, by omega⟩).sessionTime ≤ (out.get ⟨i + 1, hh⟩).sessionTime)) ∧
    (reset_index out).map Prod.fst = List.range out.length := by
  obtain ⟨combined, _, hout⟩ := global_merge_phase_ok driver files out h
  constructor
  · intro i hh
    have hs : List.Sorted rowLE out := by
      rw [hout]
      exact List.sorted_insertionSort rowLE _
    have hrel : rowLE (out.get ⟨i, by omega⟩) (out.get ⟨i + 1, hh⟩) :=
      List.pairwise_iff_get.mp hs ⟨i, by omega⟩ ⟨i + 1, hh⟩ (by simp)
    rcases hrel with h1 | ⟨h1, h2⟩
    · exact ⟨h1.le, fun he => absurd he h1.ne⟩
    · exact ⟨le_of_eq h1, fun _ => h2⟩
  · rw [reset_index]
    exact List.map_fst_zip _ _ (by simp)

/-- C4 witness: the ordering and dense index at a concrete two-file
batch given in reverse lap order. -/
theorem c4_ordering_witness :
    (∀ i : ℕ, ∀ hh : i + 1 < ([⟨"HAM", 1, some "VER", some 3, 9⟩,
        ⟨"HAM", 2, some "None", none, 5⟩] : List Row).length,
      (([⟨"HAM", 1, some "VER", some 3, 9⟩,
          ⟨"HAM", 2, some "None", none, 5⟩] : List Row).get ⟨i, by omega⟩).lapNumber
          ≤ (([⟨"HAM", 1, some "VER", some 3, 9⟩,
          ⟨"HAM", 2, some "None", none, 5⟩] : List Row).get ⟨i + 1, hh⟩).lapNumber ∧
      ((([⟨"HAM", 1, some "VER", some 3, 9⟩,
          ⟨"HAM", 2, some "None", none, 5⟩] : List Row).get ⟨i, by omega⟩).lapNumber
            = (([⟨"HAM", 1, some "VER", some 3, 9⟩,
          ⟨"HAM", 2, some "None", none, 5⟩] : List Row).get ⟨i + 1, hh⟩).lapNumber →
        (([⟨"HAM", 1, some "VER", some 3, 9⟩,
          ⟨"HAM", 2, some "None", none, 5⟩] : List Row).get ⟨i, by omega⟩).sessionTime
            ≤ (([⟨"HAM", 1, some "VER", some 3, 9⟩,
          ⟨"HAM", 2, some "None", none, 5⟩] : List Row).get ⟨i + 1, hh⟩).sessionTime)) ∧
    (reset_index [⟨"HAM", 1, some "VER", some 3, 9⟩,
        ⟨"HAM", 2, some "None", none, 5⟩]).map Prod.fst
      = List.range ([⟨"HAM", 1, some "VER", some 3, 9⟩,
        ⟨"HAM", 2, some "None", none, 5⟩] : List Row).length :=
  c4_ordering "HAM"
    [("lap_2.csv", Except.ok [⟨none, none, 5⟩]),
      ("lap_1.csv", Except.ok [⟨some "VER", some 3, 9⟩])]
    [⟨"HAM", 1, some "VER", some 3, 9⟩, ⟨"HAM", 2, some "None", none, 5⟩] (by decide)

/-- C1 counterexample: the merge phase of `Ham_analysis.py` iterates
`os.listdir(driver_folder)` with no directory guard, so a run on a
missing input directory raises `FileNotFoundError` instead of degrading
to an empty report with no artifact. -/
theorem c1_counterexample :
    ham_merge_phase "HAM" none = Except.error fileNotFoundMsg := by
  decide

/-- C1 amended: when the driver's input directory does not exist, the
`lec_analyse.py` normalizer does not throw — it completes with a report
stating the absence and writes no canonical artifact; the
`Ham_analysis.py` normalizer, by contrast, raises `FileNotFoundError`
in its (unguarded) merge phase. -/
theorem c1_amended (driver : String) :
    lec_run none = Except.ok ⟨[ReportEntry.dirMissing], none⟩ ∧
    ham_merge_phase driver none = Except.error fileNotFoundMsg :=
  ⟨by decide, rfl⟩

/-- C7 counterexample: `Ham_analysis.py` (and
`global_player_csv_clean.py`) extract the lap number with
`int(filename.replace("lap_", "").replace(".csv", ""))`, so a file
named with no digits makes `int()` raise `ValueError` and the merge
aborts instead of assigning the lap-0 sentinel. -/
theorem c7_counterexample :
    lap_number_ham "notes.csv" = none ∧
    ham_merge_phase "HAM" (some [("notes.csv", Except.ok [⟨some "VER", some 12, 5⟩])])
      = Except.error valueErrorMsg :=
  ⟨by decide, by decide⟩

theorem takeWhile_isDigit_nil (l : List Char)
    (h : ∀ c ∈ l, c.isDigit = false) : l.takeWhile Char.isDigit = [] := by
  cases l with
  | nil => rfl
  | cons c rest => simp [List.takeWhile_cons, h c (List.mem_cons_self c rest)]

theorem first_digit_run_of_no_digit (l : List Char)
    (h : ∀ c ∈ l, c.isDigit = false) : first_digit_run l = none := by
  induction l with
  | nil => rfl
  | cons c rest ih =>
    rw [first_digit_run, if_neg]
    · exact ih (fun d hd => h d (List.mem_cons_of_mem c hd))
    · simp [h c (List.mem_cons_self c rest)]

theorem lap_match_lec_of_no_digit (l : List Char)
    (h : ∀ c ∈ l, c.isDigit = false) : lap_match_lec l = none := by
  induction l with
  | nil => rfl
  | cons c rest ih =>
    have hrest : ∀ d ∈ rest, d.isDigit = false :=
      fun d hd => h d (List.mem_cons_of_mem c hd)
    have hds : ((rest.drop 3).takeWhile Char.isDigit) = [] :=
      takeWhile_isDigit_nil _ (fun d hd => hrest d ((List.drop_sublist 3 rest).subset hd))
    rw [lap_match_lec]
    by_cases hp : "lap_".data.isPrefixOf (c :: rest) = true
    · rw [if_pos hp, hds]
      simp only [List.isEmpty_nil, if_true]
      exact ih hrest
    · rw [if_neg hp]
      exact ih hrest

theorem digitsToNat_of_no_digit (l : List Char)
    (h : ∀ c ∈ l, c.isDigit = false) : digitsToNat l = none := by
  cases l with
  | nil => rw [digitsToNat, if_neg]; simp
  | cons c rest =>
    rw [digitsToNat, if_neg]
    intro hcon
    have := List.all_eq_true.mp hcon.2 c (List.mem_cons_self c rest)
    rw [h c (List.mem_cons_self c rest)] at this
    exact Bool.false_ne_true this

theorem str_to_int_of_no_digit (l : List Char)
    (h : ∀ c ∈ l, c.isDigit = false) : str_to_int l = none := by
  have htail : ∀ c ∈ l.tail, c.isDigit = false :=
    fun c hc => h c ((List.tail_sublist l).subset hc)
  rw [str_to_int]
  by_cases h1 : l.head? = some '-'
  · rw [if_pos h1, digitsToNat_of_no_digit _ htail]; rfl
  · rw [if_neg h1]
    by_cases h2 : l.head? = some '+'
    · rw [if_pos h2, digitsToNat_of_no_digit _ htail]; rfl
    · rw [if_neg h2, digitsToNat_of_no_digit _ h]; rfl

theorem mem_replaceAllFuel_empty (pat : List Char) :
    ∀ (fuel : ℕ) (l : List Char) (c : Char),
      c ∈ replaceAllFuel pat [] fuel l → c ∈ l := by
  intro fuel
  induction fuel with
  | zero =>
    intro l c hc
    cases l with
    | nil => simp [replaceAllFuel] at hc
    | cons d rest => simpa [replaceAllFuel] using hc
  | succ fuel ih =>
    intro l c hc
    cases l with
    | nil => simp [replaceAllFuel] at hc
    | cons d rest =>
      rw [replaceAllFuel] at hc
      by_cases hp : (pat.isPrefixOf (d :: rest) && !pat.isEmpty) = true
      · rw [if_pos hp] at hc
        simp only [List.nil_append] at hc
        exact (List.drop_sublist _ _).subset (ih _ c hc)
      · rw [if_neg hp] at hc
        rcases List.mem_cons.mp hc with h1 | h1
        · simp [h1]
        · exact List.mem_cons_of_mem d (ih rest c h1)

theorem mem_replaceAll_empty (pat l : List Char) (c : Char)
    (hc : c ∈ replaceAll pat [] l) : c ∈ l :=
  mem_replaceAllFuel_empty pat l.length l c hc

theorem lap_number_ham_of_no_digit (name : String)
    (h : ∀ c ∈ name.data, c.isDigit = false) : lap_number_ham name = none := by
  apply str_to_int_of_no_digit
  intro c hc
  exact h c (mem_replaceAll_empty _ _ c (mem_replaceAll_empty _ _ c hc))

/-- C7 amended: only the regex-based extractions behave as the claim
says: a filename with no digits anywhere yields the lap-0 sentinel
under `Ver_analysis.py` and `lec_analyse.py`, and the Ver merge loop
completes on such a file, tagging its records with lap 0; the
`int()`-based extraction of `Ham_analysis.py` /
`global_player_csv_clean.py` instead raises `ValueError`. -/
theorem c7_amended (name : String) (h : ∀ c ∈ name.data, c.isDigit = false) :
    lap_number_ver name = 0 ∧ lap_number_lec name = 0 ∧ lap_number_ham name = none ∧
    ∀ recs : List RawRecord,
      merge_loop_ver "VER" [(name, Except.ok recs)]
        = Except.ok (recs.map (tagRow "VER" 0)) := by
  have hver : lap_number_ver name = 0 := by
    rw [lap_number_ver, first_digit_run_of_no_digit _ h]
    rfl
  refine ⟨hver, ?_, lap_number_ham_of_no_digit name h, ?_⟩
  · rw [lap_number_lec, lap_match_lec_of_no_digit _ h]
    rfl
  · intro recs
    rw [merge_loop_ver, merge_loop_ver, hver]
    simp

/-- C7 amended witness: the three extractions and the Ver merge loop at
the digitless filename "notes.csv". -/
theorem c7_amended_witness :
    lap_number_ver "notes.csv" = 0 ∧ lap_number_lec "notes.csv" = 0 ∧
    lap_number_ham "notes.csv" = none ∧
    ∀ recs : List RawRecord,
      merge_loop_ver "VER" [("notes.csv", Except.ok recs)]
        = Except.ok (recs.map (tagRow "VER" 0)) :=
  c7_amended "notes.csv" (by decide)

theorem inspectBatch_append (a b : List (String × Except String (List RawRecord))) :
    inspectBatch (a ++ b) = inspectBatch a ++ inspectBatch b := by
  induction a with
  | nil => rfl
  | cons x rest ih =>
    obtain ⟨name, content⟩ := x
    rw [List.cons_append, inspectBatch, inspectBatch, ih, List.append_assoc]

/-- Any unreadable file in the batch makes the strict merge loop abort
with an error (the loop may also abort earlier, on a previous bad file
or on a lap-number `ValueError`; in every case it ends in an error). -/
theorem merge_loop_strict_error_of_mem (driver : String) (name : String) (e : String) :
    ∀ files : List (String × Except String (List RawRecord)),
      (name, Except.error e) ∈ files →
      ∃ msg, merge_loop_strict driver files = Except.error msg := by
  intro files hmem
  induction files with
  | nil => exact absurd hmem (List.not_mem_nil _)
  | cons x rest ih =>
    obtain ⟨n, content⟩ := x
    cases content with
    | error e2 => exact ⟨e2, rfl⟩
    | ok df =>
      rcases List.mem_cons.mp hmem with h1 | h1
      · exact absurd (congrArg Prod.snd h1) (by simp)
      · obtain ⟨msg, hmsg⟩ := ih h1
        cases hlap : lap_number_ham n with
        | none => exact ⟨valueErrorMsg, by simp [merge_loop_strict, hlap]⟩
        | some lap => exact ⟨msg, by simp [merge_loop_strict, hlap, hmsg]⟩

/-- C8 counterexample: with a well-formed `lap_1.csv` followed by an
unreadable `lap_2.csv`, the inspection phase records the failure for
that file alone and continues (both files get report entries), but the
merge phase of `global_player_csv_clean.py` re-reads the files with no
guard and the whole merge aborts with the parse error — so per-file
problems ARE raised outward from the merge phase. -/
theorem c8_counterexample :
    inspectBatch [("lap_1.csv", Except.ok [⟨none, none, 0⟩]),
        ("lap_2.csv", Except.error "ParserError")]
      = [.header "lap_1.csv", .fileDetails "lap_1.csv" 1,
        .header "lap_2.csv", .readFailure "lap_2.csv" "ParserError"] ∧
    merge_loop_strict "HAM" [("lap_1.csv", Except.ok [⟨none, none, 0⟩]),
        ("lap_2.csv", Except.error "ParserError")]
      = Except.error "ParserError" :=
  ⟨by decide, by decide⟩

/-- C8 amended: the two phases differ.  During inspection a parse
failure is recorded in the diagnostic report for that file alone and
the remaining files are still processed; but the merge phase re-reads
every file unguarded, so a batch containing a malformed file makes the
whole merge abort with an error. -/
theorem c8_amended (driver name e : String)
    (pre post : List (String × Except String (List RawRecord))) :
    inspectBatch (pre ++ (name, Except.error e) :: post)
      = inspectBatch pre
          ++ ([.header name, .readFailure name e] ++ inspectBatch post) ∧
    ∃ msg, merge_loop_strict driver (pre ++ (name, Except.error e) :: post)
      = Except.error msg := by
  constructor
  · rw [inspectBatch_append, inspectBatch]
    rfl
  · exact merge_loop_strict_error_of_mem driver name e _
      (List.mem_append_right pre (List.mem_cons_self _ _))
